import Mathlib

/-!
# Verification of `optimize_images_for_upload.py`

Shallow embedding of the image-optimization batch utility.  The script walks a
directory of images and applies, per file, one of three operations: local
recompress/resize (PIL), remote compression (tinify), or conversion to WebP.

Modelling conventions:

* The filesystem is the one target directory, modelled as an association list
  from path (the entry name; `os.path.join(directory, name)` is the identity in
  this single-directory model) to an entry.  Entry kinds distinguish regular
  files, directories, and symbolic links, because `os.path.isfile` follows
  symbolic links while `os.path.exists` is false on broken links.
* File bytes are `List Nat`.
* The external libraries (PIL decode/encode/resample, the tinify client) are an
  `Oracle` of pure functions; each library call is modelled as one step that
  either yields a result or raises a Python exception (`PyErr`).  `Image.save`
  is modelled after the library's real order of effects: the destination is
  opened with `open(path, 'w+b')` — truncating any pre-existing file — before
  the format handler runs, so a handler failure leaves the target holding
  exactly the bytes flushed before the exception (possibly none), not its
  pre-call contents.
* Python exceptions are modelled by threading a state and an `Option PyErr`:
  `(st, none)` is a normal return, `(st, some e)` is an exception propagating
  out with the side effects performed so far recorded in `st`.
* The loguru log stream and the trace of external calls are recorded in the
  state; `tqdm`, `logger.add` and the module-level example usage are pure
  display/bootstrap and are not modelled.
* Real-valued arithmetic (the reduction percentage) is modelled with `ℚ`.
-/

namespace ImageOptimus

/-- File contents as a byte sequence. -/
abbrev Bytes := List Nat

/-- A directory entry.  A symbolic link to a regular file carries the bytes of
its resolution target (one-step resolution, as observed by `open`/`stat`). -/
inductive Entry where
  | file (content : Bytes)
  | dir
  | symlinkFile (content : Bytes)
  | symlinkDir
  | symlinkBroken
deriving DecidableEq

/-- The kind of a directory entry, forgetting file contents. -/
inductive EntryKind where
  | file
  | dir
  | symlinkFile
  | symlinkDir
  | symlinkBroken
deriving DecidableEq

def entryKind : Entry → EntryKind
  | Entry.file _ => EntryKind.file
  | Entry.dir => EntryKind.dir
  | Entry.symlinkFile _ => EntryKind.symlinkFile
  | Entry.symlinkDir => EntryKind.symlinkDir
  | Entry.symlinkBroken => EntryKind.symlinkBroken

/-- The modelled directory: an association list from path to entry, in the
order `os.listdir` reports. -/
abbrev FS := List (String × Entry)

/-- First-match association lookup (directory names are unique in reality). -/
def fs_lookup : FS → String → Option Entry
  | [], _ => none
  | (k, v) :: rest, p => if k = p then some v else fs_lookup rest p

/-- Replace the first entry bound to `p` (no-op if `p` is absent). -/
def fs_set : FS → String → Entry → FS
  | [], _, _ => []
  | (k, v) :: rest, p, e => if k = p then (p, e) :: rest else (k, v) :: fs_set rest p e

/-- The name/kind skeleton of the directory. -/
def fsShape (fs : FS) : List (String × EntryKind) :=
  fs.map (fun kv => (kv.1, entryKind kv.2))

/-- Model of `os.path.exists`: follows symbolic links, so a broken link does not exist. -/
def os_path_exists (fs : FS) (p : String) : Bool :=
  match fs_lookup fs p with
  | some Entry.symlinkBroken => false
  | some _ => true
  | none => false

/-- Model of `os.path.isfile`: true for a regular file, and — because the check follows
symbolic links — also for a symlink resolving to a regular file. -/
def os_path_isfile (fs : FS) (p : String) : Bool :=
  match fs_lookup fs p with
  | some (Entry.file _) => true
  | some (Entry.symlinkFile _) => true
  | _ => false

/-- Model of `os.path.getsize` (`st_size` of a directory is some positive constant). -/
def os_path_getsize (fs : FS) (p : String) : Nat :=
  match fs_lookup fs p with
  | some (Entry.file b) => b.length
  | some (Entry.symlinkFile b) => b.length
  | some Entry.dir => 4096
  | some Entry.symlinkDir => 4096
  | _ => 0

/-- Reading a file's bytes (`open(p, 'rb')`); `none` models the `OSError`
raised when the path is a directory, a broken link, or absent. -/
def os_read (fs : FS) (p : String) : Option Bytes :=
  match fs_lookup fs p with
  | some (Entry.file b) => some b
  | some (Entry.symlinkFile b) => some b
  | _ => none

/-- The filesystem after a successful `open(p, 'wb')` write of `b`: contents
replaced in place (writing through a symlink updates the target; through a
broken link, creates the target), a fresh regular file otherwise. -/
def overwrite (fs : FS) (p : String) (b : Bytes) : FS :=
  match fs_lookup fs p with
  | some (Entry.file _) => fs_set fs p (Entry.file b)
  | some (Entry.symlinkFile _) => fs_set fs p (Entry.symlinkFile b)
  | some Entry.symlinkBroken => fs_set fs p (Entry.symlinkFile b)
  | none => fs ++ [(p, Entry.file b)]
  | some _ => fs

/-- Python exceptions relevant to this script.  All of these are subclasses of
`Exception`; only `tinifyError` is a `tinify.Error`. -/
inductive PyErr where
  | tinifyError (msg : String)
  | osError (msg : String)
  | decodeError (msg : String)
  | encodeError (msg : String)
  | zeroDivisionError
deriving DecidableEq

/-- Whether an exception is an instance of `tinify.Error`. -/
def isTinifyError : PyErr → Bool
  | PyErr.tinifyError _ => true
  | _ => false

/-- Writing via `open(p, 'wb')` raises `IsADirectoryError` on a directory path and
otherwise performs `overwrite`. -/
def pyWriteFile (fs : FS) (p : String) (b : Bytes) : Except PyErr FS :=
  match fs_lookup fs p with
  | some Entry.dir => Except.error (PyErr.osError "Is a directory")
  | some Entry.symlinkDir => Except.error (PyErr.osError "Is a directory")
  | _ => Except.ok (overwrite fs p b)

/-- Model of `os.listdir`: the entry names, in directory order (snapshot list). -/
def os_listdir (fs : FS) : List String :=
  fs.map Prod.fst

/-- A decoded PIL image: dimensions, the container format reported by
`img.format`, the `exif` entry of `img.info` if present, and an abstract
pixel-data identifier. -/
structure Img where
  width : Nat
  height : Nat
  format : String
  exif : Option Bytes
  pixels : Nat
deriving DecidableEq

/-- PIL resampling filters (the source uses `Image.ANTIALIAS`). -/
inductive PILFilter where
  | nearest
  | bilinear
  | bicubic
  | antialias
deriving DecidableEq

/-- The loguru log stream, structured by call site. -/
inductive LogEvent where
  | errorNotFound (path : String)
  | infoCompressed (path : String) (reduction : ℚ)
  | errorCompressing (path : String) (e : PyErr)
  | infoConverted (path : String)
  | errorConverting (e : PyErr)
  | infoTinyfied (path : String)
  | errorTinify (e : PyErr)
deriving DecidableEq

/-- Externally observable library calls, recorded as made. -/
inductive ExtCall where
  | resizeCall (width height : Nat) (filter : PILFilter)
  | saveCall (img : Img) (format : String) (quality : Int) (optimize : Bool)
      (exif : Option Bytes)
  | saveWebpCall (img : Img) (path : String)
  | tinifyUpload (path : String)
deriving DecidableEq

/-- Program state: the directory, the log stream, the external-call trace. -/
structure PyState where
  fs : FS
  log : List LogEvent
  calls : List ExtCall
deriving DecidableEq

/-- Behaviour of the external libraries (PIL codecs, resampler, tinify).
An encode handler either returns the full encoded byte sequence, or fails
with an exception together with the bytes it had already flushed to the
(previously truncated) destination — `[]` when it failed before writing. -/
structure Oracle where
  decode : Bytes → Option Img
  encode : Img → String → Int → Bool → Option Bytes →
    Except (PyErr × Bytes) Bytes
  resample : Img → Nat → Nat → Nat
  encodeWebp : Img → Except (PyErr × Bytes) Bytes
  tinify : Bytes → Except PyErr Bytes

/-- Model of `img.resize((w, h), ...)`: per the PIL contract the result has exactly the
requested dimensions, with resampled pixel data. -/
def pil_resize (o : Oracle) (img : Img) (w h : Nat) : Img :=
  { width := w, height := h, format := img.format, exif := img.exif,
    pixels := o.resample img w h }

/-- Source line 33: `exif = img.info['exif'] if preserve_exif and 'exif' in img.info else None`. -/
def exifSel (preserve_exif : Bool) (img : Img) : Option Bytes :=
  if preserve_exif && img.exif.isSome then img.exif else none

/-- The image handed to `img.save`: resized when a resize target is given. -/
def compress_processed_img (o : Oracle) (img : Img) :
    Option (Nat × Nat) → Img
  | some (w, h) => pil_resize o img w h
  | none => img

/-- External calls performed by the optional resize step. -/
def resizeEvents : Option (Nat × Nat) → List ExtCall
  | some (w, h) => [ExtCall.resizeCall w h PILFilter.antialias]
  | none => []

/-- Model of `PIL.Image.save(path, ...)` given the handler outcome `enc`.
The library opens the destination with `open(path, 'w+b')` first — raising
`IsADirectoryError` on a directory path, truncating a pre-existing file, and
creating a missing one — and only then runs the format handler.  The
truncation composed with the handler's writes leaves the file holding exactly
the flushed bytes: the full encoding on success, the failure's partial bytes
(possibly none) when the handler raises after the open. -/
def pil_save (fs : FS) (p : String) (enc : Except (PyErr × Bytes) Bytes) :
    FS × Option PyErr :=
  match fs_lookup fs p with
  | some Entry.dir => (fs, some (PyErr.osError "Is a directory"))
  | some Entry.symlinkDir => (fs, some (PyErr.osError "Is a directory"))
  | _ =>
    match enc with
    | Except.error (e, fl) => (overwrite fs p fl, some e)
    | Except.ok b => (overwrite fs p b, none)

/-- The `try:` block of `compress_image` (source lines 30-42): open and decode
the image, capture format and EXIF, optionally resize, save over the original
path (`pil_save`: the target is truncated before the handler encodes), then
compute and log the reduction percentage. -/
def compress_image_body (o : Oracle) (image_path : String) (quality : Int)
    (resize : Option (Nat × Nat)) (preserve_exif : Bool) (original_size : Nat)
    (st : PyState) : PyState × Option PyErr :=
  match os_read st.fs image_path with
  | none => (st, some (PyErr.osError "cannot open file"))
  | some data =>
    match o.decode data with
    | none => (st, some (PyErr.decodeError "cannot identify image file"))
    | some img =>
      let img2 := compress_processed_img o img resize
      let exif := exifSel preserve_exif img
      let stc := { st with calls := st.calls ++ resizeEvents resize
                    ++ [ExtCall.saveCall img2 img.format quality true exif] }
      match pil_save stc.fs image_path
          (o.encode img2 img.format quality true exif) with
      | (fs2, some e) => ({ stc with fs := fs2 }, some e)
      | (fs2, none) =>
        if original_size = 0 then
          ({ stc with fs := fs2 }, some PyErr.zeroDivisionError)
        else
          ({ stc with
              fs := fs2,
              log := stc.log ++ [LogEvent.infoCompressed image_path
                ((1 - ((os_path_getsize fs2 image_path : ℚ) /
                  (original_size : ℚ))) * 100)] }, none)

/-- Function `compress_image` (source lines 15-44): existence precheck, record the
original size, run the body, and catch every `Exception` into an error log. -/
def compress_image (o : Oracle) (image_path : String) (quality : Int)
    (resize : Option (Nat × Nat)) (preserve_exif : Bool)
    (st : PyState) : PyState × Option PyErr :=
  if os_path_exists st.fs image_path = false then
    ({ st with log := st.log ++ [LogEvent.errorNotFound image_path] }, none)
  else
    match compress_image_body o image_path quality resize preserve_exif
        (os_path_getsize st.fs image_path) st with
    | (st2, none) => (st2, none)
    | (st2, some e) =>
      ({ st2 with log := st2.log ++ [LogEvent.errorCompressing image_path e] },
        none)

/-- Lowercasing as in `str.lower` (ASCII range; extensions are ASCII). -/
def py_lower (s : String) : String :=
  String.mk (s.data.map Char.toLower)

/-- Model of `str.endswith`. -/
def py_endswith (s suffix : String) : Bool :=
  List.isSuffixOf suffix.data s.data

/-- The extension allow-list of `is_image_file` (source line 56). -/
def valid_extensions : List String :=
  [".jpg", ".jpeg", ".png", ".gif", ".bmp", ".webp"]

/-- Function `is_image_file` (source lines 46-57). -/
def is_image_file (filename : String) : Bool :=
  valid_extensions.any (fun ext => py_endswith (py_lower filename) ext)

/-- The per-entry filter of the batch drivers (source line 71):
`os.path.isfile(file_path) and is_image_file(filename)`. -/
def driver_selects (fs : FS) (filename : String) : Bool :=
  os_path_isfile fs filename && is_image_file filename

/-- Loop of `compress_images_in_directory` over the `os.listdir` snapshot. -/
def compress_loop (o : Oracle) (quality : Int) (resize : Option (Nat × Nat))
    (preserve_exif : Bool) : List String → PyState → PyState × Option PyErr
  | [], st => (st, none)
  | filename :: rest, st =>
    if os_path_isfile st.fs filename && is_image_file filename then
      match compress_image o filename quality resize preserve_exif st with
      | (st2, none) => compress_loop o quality resize preserve_exif rest st2
      | (st2, some e) => (st2, some e)
    else compress_loop o quality resize preserve_exif rest st

/-- Function `compress_images_in_directory` (source lines 59-72).  `tqdm` is display
only; an uncaught exception from the per-file call aborts the loop. -/
def compress_images_in_directory (o : Oracle) (quality : Int)
    (resize : Option (Nat × Nat)) (preserve_exif : Bool) (st : PyState) :
    PyState × Option PyErr :=
  compress_loop o quality resize preserve_exif (os_listdir st.fs) st

/-- Index of the last occurrence of `c` in `cs`. -/
def lastIdxOpt (cs : List Char) (c : Char) : Option Nat :=
  match cs.reverse.findIdx? (fun x => x == c) with
  | none => none
  | some k => some (cs.length - 1 - k)

/-- Model of `os.path.splitext(s)[0]` (CPython `genericpath._splitext`): strip from the
last dot, provided it lies in the basename and is preceded there by some
non-dot character (so leading dots never start an extension). -/
def py_splitext_root (s : String) : String :=
  match lastIdxOpt s.data '.' with
  | none => s
  | some di =>
    let fstart := match lastIdxOpt s.data '/' with
      | none => 0
      | some si => si + 1
    if fstart ≤ di ∧
        ((s.data.drop fstart).take (di - fstart)).any (fun c => c ≠ '.') then
      String.mk (s.data.take di)
    else s

/-- Source line 90: `webp_path = os.path.splitext(image_path)[0] + '.webp'` (source line 90). -/
def webp_path (image_path : String) : String :=
  py_splitext_root image_path ++ ".webp"

/-- The `try:` block of `convert_to_webp` (source lines 88-93); the save to
the derived path goes through `pil_save`, so a failing save can leave a
truncated or partially written file at that path. -/
def convert_to_webp_body (o : Oracle) (image_path : String) (st : PyState) :
    PyState × Option PyErr × Option String :=
  match os_read st.fs image_path with
  | none => (st, some (PyErr.osError "cannot open file"), none)
  | some data =>
    match o.decode data with
    | none => (st, some (PyErr.decodeError "cannot identify image file"), none)
    | some img =>
      let stc := { st with calls := st.calls
                    ++ [ExtCall.saveWebpCall img (webp_path image_path)] }
      match pil_save stc.fs (webp_path image_path) (o.encodeWebp img) with
      | (fs2, some e) => ({ stc with fs := fs2 }, some e, none)
      | (fs2, none) =>
        ({ stc with
            fs := fs2,
            log := stc.log ++ [LogEvent.infoConverted image_path] },
          none, some (webp_path image_path))

/-- Function `convert_to_webp` (source lines 74-95): existence precheck, body, catch
every `Exception` into an error log; returns the new path or `None`. -/
def convert_to_webp (o : Oracle) (image_path : String) (st : PyState) :
    PyState × Option PyErr × Option String :=
  if os_path_exists st.fs image_path = false then
    ({ st with log := st.log ++ [LogEvent.errorNotFound image_path] },
      none, none)
  else
    match convert_to_webp_body o image_path st with
    | (st2, none, r) => (st2, none, r)
    | (st2, some e, _) =>
      ({ st2 with log := st2.log ++ [LogEvent.errorConverting e] }, none, none)

/-- Loop of `convert_directory_to_webp` over the `os.listdir` snapshot. -/
def convert_loop (o : Oracle) : List String → PyState → PyState × Option PyErr
  | [], st => (st, none)
  | filename :: rest, st =>
    if os_path_isfile st.fs filename && is_image_file filename then
      match convert_to_webp o filename st with
      | (st2, none, _) => convert_loop o rest st2
      | (st2, some e, _) => (st2, some e)
    else convert_loop o rest st

/-- Function `convert_directory_to_webp` (source lines 97-107). -/
def convert_directory_to_webp (o : Oracle) (st : PyState) :
    PyState × Option PyErr :=
  convert_loop o (os_listdir st.fs) st

/-- The `try:` block of `compress_image_tinyfy` (source lines 120-123):
`tinify.from_file` reads and uploads the file, `source.to_file` overwrites the
original path with the optimized bytes. -/
def compress_image_tinyfy_body (o : Oracle) (image_path : String)
    (st : PyState) : PyState × Option PyErr :=
  match os_read st.fs image_path with
  | none => (st, some (PyErr.osError "cannot open file"))
  | some data =>
    let stc := { st with calls := st.calls ++ [ExtCall.tinifyUpload image_path] }
    match o.tinify data with
    | Except.error e => (stc, some e)
    | Except.ok newBytes =>
      match pyWriteFile stc.fs image_path newBytes with
      | Except.error e => (stc, some e)
      | Except.ok fs2 =>
        ({ stc with
            fs := fs2,
            log := stc.log ++ [LogEvent.infoTinyfied image_path] }, none)

/-- Function `compress_image_tinyfy` (source lines 109-125).  Note the `except` clause
catches only `tinify.Error`; any other exception propagates. -/
def compress_image_tinyfy (o : Oracle) (image_path : String) (st : PyState) :
    PyState × Option PyErr :=
  if os_path_exists st.fs image_path = false then
    ({ st with log := st.log ++ [LogEvent.errorNotFound image_path] }, none)
  else
    match compress_image_tinyfy_body o image_path st with
    | (st2, none) => (st2, none)
    | (st2, some e) =>
      if isTinifyError e then
        ({ st2 with log := st2.log ++ [LogEvent.errorTinify e] }, none)
      else (st2, some e)

/-- Loop of `compress_images_in_directory_tinyfy`. -/
def tinyfy_loop (o : Oracle) : List String → PyState → PyState × Option PyErr
  | [], st => (st, none)
  | filename :: rest, st =>
    if os_path_isfile st.fs filename && is_image_file filename then
      match compress_image_tinyfy o filename st with
      | (st2, none) => tinyfy_loop o rest st2
      | (st2, some e) => (st2, some e)
    else tinyfy_loop o rest st

/-- Function `compress_images_in_directory_tinyfy` (source lines 127-137). -/
def compress_images_in_directory_tinyfy (o : Oracle) (st : PyState) :
    PyState × Option PyErr :=
  tinyfy_loop o (os_listdir st.fs) st

/-! ## Concrete fixtures

Concrete filesystems and oracle instantiations used by the witness and
counterexample theorems. -/

/-- A small decoded image. -/
def imgA : Img :=
  { width := 10, height := 8, format := "JPEG", exif := some [9], pixels := 0 }

/-- Libraries that always succeed; local re-encoding shrinks to two bytes. -/
def oracleA : Oracle :=
  { decode := fun _ => some imgA
    encode := fun _ _ _ _ _ => Except.ok [1, 2]
    resample := fun _ _ _ => 1
    encodeWebp := fun _ => Except.ok [7]
    tinify := fun _ => Except.ok [3] }

/-- Like `oracleA` but local re-encoding grows the file to five bytes. -/
def oracleGrow : Oracle :=
  { oracleA with encode := fun _ _ _ _ _ => Except.ok [1, 2, 3, 4, 5] }

/-- Like `oracleA` but the local encode handler always fails after flushing
nothing (e.g. `cannot write mode P as JPEG`, raised after the destination has
been opened and truncated). -/
def oracleEncFail : Oracle :=
  { oracleA with
    encode := fun _ _ _ _ _ =>
      Except.error (PyErr.encodeError "cannot write mode P as JPEG", []) }

/-- Like `oracleA` but the remote service fails with a `tinify.Error`. -/
def oracleTinifyFail : Oracle :=
  { oracleA with
    tinify := fun _ => Except.error (PyErr.tinifyError "quota exceeded") }

/-- Like `oracleA` but the remote call fails with an `OSError` (for example a
local read/write permission failure inside `from_file`/`to_file`). -/
def oracleOsFail : Oracle :=
  { oracleA with
    tinify := fun _ => Except.error (PyErr.osError "Permission denied") }

/-- One regular three-byte image file. -/
def fs1 : FS := [("a.jpg", Entry.file [1, 2, 3])]

/-- One regular file whose name already carries the `.webp` extension. -/
def fsC3 : FS := [("a.webp", Entry.file [1, 2, 3])]

/-- One symbolic link resolving to a regular file, named like an image. -/
def fsC4 : FS := [("link.jpg", Entry.symlinkFile [1, 2, 3])]

/-- One regular image file, one non-image file, and one symbolic link that
resolves to a regular file and is named like an image. -/
def fsC5 : FS :=
  [("a.jpg", Entry.file [1, 2, 3]), ("b.txt", Entry.file [4]),
    ("link.jpg", Entry.symlinkFile [5, 6])]

/-! ## Filesystem lemmas -/

theorem fs_lookup_fs_set_self {fs : FS} {p : String} {e0 : Entry} (e : Entry)
    (h : fs_lookup fs p = some e0) : fs_lookup (fs_set fs p e) p = some e := by
  induction fs with
  | nil => simp [fs_lookup] at h
  | cons kv rest ih =>
    obtain ⟨k, v⟩ := kv
    by_cases hk : k = p
    · simp [fs_lookup, fs_set, hk]
    · simp only [fs_lookup, fs_set, if_neg hk] at h ⊢
      exact ih h

theorem fs_lookup_fs_set_ne {fs : FS} {p q : String} {e : Entry} (h : q ≠ p) :
    fs_lookup (fs_set fs p e) q = fs_lookup fs q := by
  induction fs with
  | nil => simp [fs_set]
  | cons kv rest ih =>
    obtain ⟨k, v⟩ := kv
    by_cases hk : k = p
    · subst hk
      simp [fs_set, fs_lookup, Ne.symm h]
    · simp only [fs_set, if_neg hk, fs_lookup]
      by_cases hq : k = q
      · simp [hq]
      · simp [hq, ih]

theorem fs_lookup_append_ne {fs : FS} {p q : String} {e : Entry} (h : q ≠ p) :
    fs_lookup (fs ++ [(p, e)]) q = fs_lookup fs q := by
  induction fs with
  | nil => simp [fs_lookup, Ne.symm h]
  | cons kv rest ih =>
    obtain ⟨k, v⟩ := kv
    by_cases hq : k = q
    · simp [fs_lookup, hq]
    · simp [fs_lookup, hq, ih]

theorem fsShape_fs_set {fs : FS} {p : String} {e0 : Entry} {e : Entry}
    (h : fs_lookup fs p = some e0) (hk : entryKind e = entryKind e0) :
    fsShape (fs_set fs p e) = fsShape fs := by
  induction fs with
  | nil => simp [fs_set]
  | cons kv rest ih =>
    obtain ⟨k, v⟩ := kv
    by_cases hkp : k = p
    · subst hkp
      simp [fs_lookup] at h
      subst h
      simp [fs_set, fsShape, hk]
    · simp only [fs_lookup, if_neg hkp] at h
      simp [fs_set, hkp, fsShape] at ih ⊢
      exact ih h

theorem os_read_cases {fs : FS} {p : String} {d : Bytes}
    (h : os_read fs p = some d) :
    fs_lookup fs p = some (Entry.file d) ∨
      fs_lookup fs p = some (Entry.symlinkFile d) := by
  unfold os_read at h
  rcases he : fs_lookup fs p with _ | e
  · rw [he] at h; cases h
  · rw [he] at h
    cases e <;> simp_all

theorem os_path_exists_of_read {fs : FS} {p : String} {d : Bytes}
    (h : os_read fs p = some d) : os_path_exists fs p = true := by
  rcases os_read_cases h with he | he <;> simp [os_path_exists, he]

theorem os_path_isfile_of_read {fs : FS} {p : String} {d : Bytes}
    (h : os_read fs p = some d) : os_path_isfile fs p = true := by
  rcases os_read_cases h with he | he <;> simp [os_path_isfile, he]

theorem os_path_getsize_of_read {fs : FS} {p : String} {d : Bytes}
    (h : os_read fs p = some d) : os_path_getsize fs p = d.length := by
  rcases os_read_cases h with he | he <;> simp [os_path_getsize, he]

theorem pyWriteFile_of_read {fs : FS} {p : String} {d : Bytes} (b : Bytes)
    (h : os_read fs p = some d) :
    pyWriteFile fs p b = Except.ok (overwrite fs p b) := by
  rcases os_read_cases h with he | he <;> simp [pyWriteFile, he]

theorem fsShape_overwrite {fs : FS} {p : String} {d : Bytes} (b : Bytes)
    (h : os_read fs p = some d) : fsShape (overwrite fs p b) = fsShape fs := by
  rcases os_read_cases h with he | he
  · rw [overwrite, he]
    exact fsShape_fs_set he rfl
  · rw [overwrite, he]
    exact fsShape_fs_set he rfl

theorem os_read_overwrite {fs : FS} {p : String} {d : Bytes} (b : Bytes)
    (h : os_read fs p = some d) : os_read (overwrite fs p b) p = some b := by
  rcases os_read_cases h with he | he
  · rw [overwrite, he, os_read, fs_lookup_fs_set_self (Entry.file b) he]
  · rw [overwrite, he, os_read,
      fs_lookup_fs_set_self (Entry.symlinkFile b) he]

theorem os_path_getsize_overwrite {fs : FS} {p : String} {d : Bytes}
    (b : Bytes) (h : os_read fs p = some d) :
    os_path_getsize (overwrite fs p b) p = b.length := by
  rcases os_read_cases h with he | he
  · rw [overwrite, he, os_path_getsize, fs_lookup_fs_set_self (Entry.file b) he]
  · rw [overwrite, he, os_path_getsize,
      fs_lookup_fs_set_self (Entry.symlinkFile b) he]

theorem fs_lookup_overwrite_ne {fs : FS} {p q : String} (b : Bytes)
    (h : q ≠ p) : fs_lookup (overwrite fs p b) q = fs_lookup fs q := by
  unfold overwrite
  rcases he : fs_lookup fs p with _ | e
  · exact fs_lookup_append_ne h
  · cases e <;> simp [fs_lookup_fs_set_ne h]

theorem pil_save_ok_of_read {fs : FS} {p : String} {d : Bytes} (b : Bytes)
    (h : os_read fs p = some d) :
    pil_save fs p (Except.ok b) = (overwrite fs p b, none) := by
  rcases os_read_cases h with he | he <;> simp [pil_save, he]

theorem pil_save_err_of_read {fs : FS} {p : String} {d : Bytes} (e : PyErr)
    (fl : Bytes) (h : os_read fs p = some d) :
    pil_save fs p (Except.error (e, fl)) = (overwrite fs p fl, some e) := by
  rcases os_read_cases h with he | he <;> simp [pil_save, he]

theorem pil_save_shape (enc : Except (PyErr × Bytes) Bytes) {fs : FS}
    {p : String} {d : Bytes} (h : os_read fs p = some d) :
    fsShape (pil_save fs p enc).1 = fsShape fs := by
  cases enc with
  | error pr =>
    obtain ⟨e, fl⟩ := pr
    rw [pil_save_err_of_read e fl h]
    exact fsShape_overwrite fl h
  | ok b =>
    rw [pil_save_ok_of_read b h]
    exact fsShape_overwrite b h

theorem pil_save_cases (fs : FS) (p : String)
    (enc : Except (PyErr × Bytes) Bytes) :
    ((pil_save fs p enc).1 = fs ∧ ∃ e, (pil_save fs p enc).2 = some e) ∨
    (∃ e fl, enc = Except.error (e, fl) ∧
      pil_save fs p enc = (overwrite fs p fl, some e)) ∨
    (∃ b, enc = Except.ok b ∧
      pil_save fs p enc = (overwrite fs p b, none)) := by
  unfold pil_save
  split
  · exact Or.inl ⟨rfl, _, rfl⟩
  · exact Or.inl ⟨rfl, _, rfl⟩
  · cases enc with
    | error pr =>
      obtain ⟨e, fl⟩ := pr
      exact Or.inr (Or.inl ⟨e, fl, rfl, rfl⟩)
    | ok b => exact Or.inr (Or.inr ⟨b, rfl, rfl⟩)

/-! ## Per-operation run lemmas -/

theorem compress_image_body_run (o : Oracle) (path : String) (q : Int)
    (r : Option (Nat × Nat)) (pe : Bool) (osz : Nat) (st : PyState) :
    fsShape (compress_image_body o path q r pe osz st).1.fs = fsShape st.fs ∧
    ((compress_image_body o path q r pe osz st).2 = none →
      ∃ ev, (compress_image_body o path q r pe osz st).1.log = st.log ++ [ev]) ∧
    (∀ e, (compress_image_body o path q r pe osz st).2 = some e →
      (compress_image_body o path q r pe osz st).1.log = st.log) := by
  unfold compress_image_body
  split
  · exact ⟨rfl, by simp, fun e _ => rfl⟩
  · rename_i data heqr
    split
    · exact ⟨rfl, by simp, fun e _ => rfl⟩
    · rename_i img heqd
      dsimp only
      split
      · rename_i fs2 e heqs
        have hs := pil_save_shape (o.encode (compress_processed_img o img r)
          img.format q true (exifSel pe img)) heqr
        rw [heqs] at hs
        exact ⟨hs, by simp, fun e2 _ => rfl⟩
      · rename_i fs2 heqs
        have hs := pil_save_shape (o.encode (compress_processed_img o img r)
          img.format q true (exifSel pe img)) heqr
        rw [heqs] at hs
        split
        · exact ⟨hs, by simp, fun e2 _ => rfl⟩
        · exact ⟨hs, fun _ => ⟨_, rfl⟩, fun e2 h => by cases h⟩

theorem compress_image_run (o : Oracle) (path : String) (q : Int)
    (r : Option (Nat × Nat)) (pe : Bool) (st : PyState) :
    (compress_image o path q r pe st).2 = none ∧
    fsShape (compress_image o path q r pe st).1.fs = fsShape st.fs ∧
    ∃ ev, (compress_image o path q r pe st).1.log = st.log ++ [ev] := by
  unfold compress_image
  split
  · exact ⟨rfl, rfl, _, rfl⟩
  · obtain ⟨hsh, hnone, hsome⟩ :=
      compress_image_body_run o path q r pe (os_path_getsize st.fs path) st
    split
    · rename_i st2 heq
      rw [heq] at hsh hnone
      exact ⟨rfl, hsh, hnone rfl⟩
    · rename_i st2 e heq
      rw [heq] at hsh hsome
      exact ⟨rfl, hsh, _, by rw [hsome e rfl]⟩

theorem os_path_isfile_congr {fs1 fs2 : FS} (h : fsShape fs1 = fsShape fs2)
    (p : String) : os_path_isfile fs1 p = os_path_isfile fs2 p := by
  induction fs1 generalizing fs2 with
  | nil =>
    cases fs2 with
    | nil => rfl
    | cons kv rest => simp [fsShape] at h
  | cons kv rest ih =>
    cases fs2 with
    | nil => simp [fsShape] at h
    | cons kv2 rest2 =>
      obtain ⟨k, v⟩ := kv
      obtain ⟨k2, v2⟩ := kv2
      simp only [fsShape, List.map_cons, List.cons.injEq, Prod.mk.injEq] at h
      obtain ⟨⟨hk, hv⟩, hrest⟩ := h
      subst hk
      by_cases hp : k = p
      · subst hp
        simp only [os_path_isfile, fs_lookup, if_pos rfl]
        cases v <;> cases v2 <;> simp_all [entryKind]
      · simp only [os_path_isfile, fs_lookup, if_neg hp]
        exact ih hrest

theorem os_read_of_isfile {fs : FS} {p : String}
    (h : os_path_isfile fs p = true) : ∃ d, os_read fs p = some d := by
  unfold os_path_isfile at h
  rcases he : fs_lookup fs p with _ | e
  · rw [he] at h
    cases h
  · rw [he] at h
    cases e <;> simp_all [os_read, he]

theorem convert_to_webp_body_run (o : Oracle) (path : String) (st : PyState) :
    ((convert_to_webp_body o path st).2.1 = none →
      (convert_to_webp_body o path st).2.2 = some (webp_path path) ∧
      ∃ data img b, os_read st.fs path = some data ∧
        o.decode data = some img ∧ o.encodeWebp img = Except.ok b ∧
        (convert_to_webp_body o path st).1.fs
          = overwrite st.fs (webp_path path) b ∧
        (convert_to_webp_body o path st).1.log
          = st.log ++ [LogEvent.infoConverted path]) ∧
    (∀ e, (convert_to_webp_body o path st).2.1 = some e →
      ((convert_to_webp_body o path st).1.fs = st.fs ∨
        ∃ fl, (convert_to_webp_body o path st).1.fs
          = overwrite st.fs (webp_path path) fl) ∧
      (convert_to_webp_body o path st).1.log = st.log ∧
      (convert_to_webp_body o path st).2.2 = none) := by
  unfold convert_to_webp_body
  split
  · exact ⟨by simp, fun e _ => ⟨Or.inl rfl, rfl, rfl⟩⟩
  · rename_i data heqr
    split
    · exact ⟨by simp, fun e _ => ⟨Or.inl rfl, rfl, rfl⟩⟩
    · rename_i img heqd
      dsimp only
      split
      · rename_i fs2 e heqs
        refine ⟨by simp, fun e2 _ => ⟨?_, rfl, rfl⟩⟩
        rcases pil_save_cases st.fs (webp_path path) (o.encodeWebp img) with
          ⟨h1, e3, h2⟩ | ⟨e3, fl, henc, h2⟩ | ⟨b, henc, h2⟩
        · rw [heqs] at h1
          exact Or.inl h1
        · rw [heqs] at h2
          exact Or.inr ⟨fl, congrArg Prod.fst h2⟩
        · rw [heqs] at h2
          exact absurd (congrArg Prod.snd h2) (by simp)
      · rename_i fs2 heqs
        rcases pil_save_cases st.fs (webp_path path) (o.encodeWebp img) with
          ⟨h1, e3, h2⟩ | ⟨e3, fl, henc, h2⟩ | ⟨b, henc, h2⟩
        · rw [heqs] at h2
          exact absurd h2 (by simp)
        · rw [heqs] at h2
          exact absurd (congrArg Prod.snd h2) (by simp)
        · rw [heqs] at h2
          exact ⟨fun _ => ⟨rfl, data, img, b, heqr, heqd, henc,
              congrArg Prod.fst h2, rfl⟩,
            fun e2 h => by cases h⟩

theorem convert_to_webp_run (o : Oracle) (path : String) (st : PyState) :
    (convert_to_webp o path st).2.1 = none ∧
    ((convert_to_webp o path st).2.2 = none →
      ((convert_to_webp o path st).1.fs = st.fs ∨
        ∃ fl, (convert_to_webp o path st).1.fs
          = overwrite st.fs (webp_path path) fl) ∧
      ∃ ev, (convert_to_webp o path st).1.log = st.log ++ [ev]) ∧
    (∀ p2, (convert_to_webp o path st).2.2 = some p2 →
      p2 = webp_path path ∧
      ∃ data img b, os_read st.fs path = some data ∧
        o.decode data = some img ∧ o.encodeWebp img = Except.ok b ∧
        (convert_to_webp o path st).1.fs
          = overwrite st.fs (webp_path path) b ∧
        (convert_to_webp o path st).1.log
          = st.log ++ [LogEvent.infoConverted path]) := by
  unfold convert_to_webp
  split
  · exact ⟨rfl, fun _ => ⟨Or.inl rfl, _, rfl⟩, fun p2 h => by cases h⟩
  · obtain ⟨hok, herr⟩ := convert_to_webp_body_run o path st
    split
    · rename_i st2 ret heq
      rw [heq] at hok
      obtain ⟨hret, data, img, b, h1, h2, h3, h4, h5⟩ := hok rfl
      dsimp only at hret h4 h5 ⊢
      subst hret
      exact ⟨rfl, by simp, fun p2 hp2 => by
        cases hp2
        exact ⟨rfl, data, img, b, h1, h2, h3, h4, h5⟩⟩
    · rename_i st2 e ret heq
      rw [heq] at herr
      obtain ⟨h1, h2, h3⟩ := herr e rfl
      dsimp only at h1 h2 h3 ⊢
      exact ⟨rfl, fun _ => ⟨h1, _, by rw [h2]⟩, fun p2 hp2 => by cases hp2⟩

theorem compress_image_tinyfy_contained (o : Oracle) (path : String)
    (st : PyState)
    (hsvc : ∀ data e, o.tinify data = Except.error e → isTinifyError e = true)
    (hnd : os_path_exists st.fs path = true → os_path_isfile st.fs path = true) :
    (compress_image_tinyfy o path st).2 = none := by
  unfold compress_image_tinyfy
  split
  · rfl
  · rename_i hex
    have hex2 : os_path_exists st.fs path = true := by
      cases hb : os_path_exists st.fs path
      · exact absurd hb hex
      · rfl
    obtain ⟨d, hread⟩ := os_read_of_isfile (hnd hex2)
    unfold compress_image_tinyfy_body
    rw [hread]
    dsimp only
    rcases ht : o.tinify d with e | newBytes
    · have := hsvc d e ht
      simp [this]
    · dsimp only
      rw [pyWriteFile_of_read newBytes hread]

/-! ## Driver loop lemma

Each `compress_image` call returns normally (never raises), appends exactly
one log line, and preserves the name/kind skeleton of the directory; hence a
driver pass started with an empty log emits exactly one log line per selected
entry, which counts its per-file-operation invocations. -/

theorem compress_loop_run (o : Oracle) (q : Int) (r : Option (Nat × Nat))
    (pe : Bool) (names : List String) (st : PyState) :
    (compress_loop o q r pe names st).2 = none ∧
    fsShape (compress_loop o q r pe names st).1.fs = fsShape st.fs ∧
    (compress_loop o q r pe names st).1.log.length =
      st.log.length +
        names.countP (fun n => os_path_isfile st.fs n && is_image_file n) := by
  induction names generalizing st with
  | nil => simp [compress_loop]
  | cons name rest ih =>
    by_cases hsel : (os_path_isfile st.fs name && is_image_file name) = true
    · rcases hres : compress_image o name q r pe st with ⟨st2, err⟩
      obtain ⟨hn, hsh, ev, hlog⟩ := compress_image_run o name q r pe st
      rw [hres] at hn hsh hlog
      dsimp only at hn hsh hlog
      subst hn
      have hstep : compress_loop o q r pe (name :: rest) st
          = compress_loop o q r pe rest st2 := by
        conv_lhs => unfold compress_loop
        rw [if_pos hsel, hres]
      rw [hstep]
      obtain ⟨ih1, ih2, ih3⟩ := ih st2
      refine ⟨ih1, ih2.trans hsh, ?_⟩
      have hc : rest.countP (fun n => os_path_isfile st2.fs n && is_image_file n)
          = rest.countP (fun n => os_path_isfile st.fs n && is_image_file n) := by
        apply List.countP_congr
        intro a _
        rw [os_path_isfile_congr hsh a]
      rw [ih3, hc, hlog, List.countP_cons]
      simp [hsel]
      omega
    · have hstep : compress_loop o q r pe (name :: rest) st
          = compress_loop o q r pe rest st := by
        conv_lhs => unfold compress_loop
        rw [if_neg hsel]
      rw [hstep]
      obtain ⟨ih1, ih2, ih3⟩ := ih st
      refine ⟨ih1, ih2, ?_⟩
      rw [ih3, List.countP_cons]
      simp [hsel]

theorem compress_image_body_fs (o : Oracle) (path : String) (q : Int)
    (r : Option (Nat × Nat)) (pe : Bool) (osz : Nat) (st : PyState) :
    (compress_image_body o path q r pe osz st).1.fs = st.fs ∨
    ∃ data img, os_read st.fs path = some data ∧ o.decode data = some img ∧
      ((∃ b, o.encode (compress_processed_img o img r) img.format q true
            (exifSel pe img) = Except.ok b ∧
          (compress_image_body o path q r pe osz st).1.fs
            = overwrite st.fs path b) ∨
        (∃ e fl, o.encode (compress_processed_img o img r) img.format q true
            (exifSel pe img) = Except.error (e, fl) ∧
          (compress_image_body o path q r pe osz st).1.fs
            = overwrite st.fs path fl)) := by
  unfold compress_image_body
  split
  · exact Or.inl rfl
  · rename_i data heqr
    split
    · exact Or.inl rfl
    · rename_i img heqd
      dsimp only
      rcases henc : o.encode (compress_processed_img o img r) img.format q true
          (exifSel pe img) with pr | b
      · obtain ⟨e, fl⟩ := pr
        rw [pil_save_err_of_read e fl heqr]
        exact Or.inr ⟨data, img, heqr, heqd, Or.inr ⟨e, fl, henc, rfl⟩⟩
      · rw [pil_save_ok_of_read b heqr]
        dsimp only
        split
        · exact Or.inr ⟨data, img, heqr, heqd, Or.inl ⟨b, henc, rfl⟩⟩
        · exact Or.inr ⟨data, img, heqr, heqd, Or.inl ⟨b, henc, rfl⟩⟩

theorem compress_image_body_calls (o : Oracle) (path : String) (q : Int)
    (r : Option (Nat × Nat)) (pe : Bool) (osz : Nat) (st : PyState)
    {data : Bytes} {img : Img} (hread : os_read st.fs path = some data)
    (hdec : o.decode data = some img) :
    (compress_image_body o path q r pe osz st).1.calls
      = st.calls ++ resizeEvents r
        ++ [ExtCall.saveCall (compress_processed_img o img r) img.format q true
            (exifSel pe img)] := by
  unfold compress_image_body
  rw [hread]
  dsimp only
  rw [hdec]
  dsimp only
  split
  · rfl
  · split
    · rfl
    · rfl

theorem compress_image_calls (o : Oracle) (path : String) (q : Int)
    (r : Option (Nat × Nat)) (pe : Bool) (st : PyState)
    {data : Bytes} {img : Img} (hread : os_read st.fs path = some data)
    (hdec : o.decode data = some img) :
    (compress_image o path q r pe st).1.calls
      = st.calls ++ resizeEvents r
        ++ [ExtCall.saveCall (compress_processed_img o img r) img.format q true
            (exifSel pe img)] := by
  have hbody := compress_image_body_calls o path q r pe
    (os_path_getsize st.fs path) st hread hdec
  have hex : ¬(os_path_exists st.fs path = false) := by
    simp [os_path_exists_of_read hread]
  unfold compress_image
  rw [if_neg hex]
  split
  · rename_i st2 heq
    rw [heq] at hbody
    exact hbody
  · rename_i st2 e heq
    rw [heq] at hbody
    exact hbody

/-! ## Spec-side definitions

Definitions transcribed from the specification's words, to be compared with
the source-derived behaviour. -/

/-- From the claims' words: the entry is a regular file, with directories and
symbolic links of every kind excluded. -/
def spec_regular_file (fs : FS) (p : String) : Bool :=
  match fs_lookup fs p with
  | some (Entry.file _) => true
  | _ => false

/-- From the spec: reduction percentage
`(1 - compressed_size/original_size) * 100`, over exact rationals. -/
def specReduction (size_before size_after : Nat) : ℚ :=
  (1 - (size_after : ℚ) / (size_before : ℚ)) * 100

/-! ## Claims -/

/-- Claim C1, counterexample.  The claim states that every error arising while
processing a file is caught inside the per-file operation and never re-raised.
On a filesystem holding the regular file `a.jpg`, with a remote client whose
call fails with an `OSError` (e.g. a local read/write permission failure
inside `from_file`/`to_file`), `compress_image_tinyfy` propagates the
exception to its caller: its `except tinify.Error` clause does not cover it. -/
theorem C1_counterexample :
    ¬ ((compress_image_tinyfy oracleOsFail "a.jpg" ⟨fs1, [], []⟩).2 = none) := by
  decide

/-- Claim C1 (amended): errors are caught at single-file granularity and
converted into skipping the file — without restriction for the local compress
and convert operations (their `except Exception` catches every modelled
exception), and for the remote operation only under the proviso that every
failure the remote call raises is a `tinify.Error` and the existing path is a
readable file (otherwise an uncaught `OSError` escapes). -/
theorem C1_errors_contained :
    (∀ o path q r pe st, (compress_image o path q r pe st).2 = none) ∧
    (∀ o path st, (convert_to_webp o path st).2.1 = none) ∧
    (∀ o path st,
      (∀ data e, Oracle.tinify o data = Except.error e → isTinifyError e = true) →
      (os_path_exists st.fs path = true → os_path_isfile st.fs path = true) →
      (compress_image_tinyfy o path st).2 = none) :=
  ⟨fun o path q r pe st => (compress_image_run o path q r pe st).1,
   fun o path st => (convert_to_webp_run o path st).1,
   fun o path st h1 h2 => compress_image_tinyfy_contained o path st h1 h2⟩

/-- Witness for C1: the three containment statements at concrete inputs, with
a remote client failing with a genuine `tinify.Error`. -/
theorem C1_errors_contained_witness :
    (compress_image oracleA "a.jpg" 45 none false ⟨fs1, [], []⟩).2 = none ∧
    (convert_to_webp oracleA "a.jpg" ⟨fs1, [], []⟩).2.1 = none ∧
    (compress_image_tinyfy oracleTinifyFail "a.jpg" ⟨fs1, [], []⟩).2 = none := by
  refine ⟨C1_errors_contained.1 oracleA "a.jpg" 45 none false ⟨fs1, [], []⟩,
    C1_errors_contained.2.1 oracleA "a.jpg" ⟨fs1, [], []⟩,
    C1_errors_contained.2.2 oracleTinifyFail "a.jpg" ⟨fs1, [], []⟩ ?_ ?_⟩
  · intro data e h
    simp only [oracleTinifyFail, oracleA] at h
    injection h with h
    subst h
    rfl
  · intro _
    decide

/-- Claim C2, counterexample.  The claim states that after any call the file
either consists entirely of newly encoded bytes or is byte-identical to its
pre-call state, the write happening only after a successful re-encode.  In
reality `img.save` opens the destination with `open(path, 'w+b')` —
truncating it — before the format handler runs: with an encoder that fails
after flushing nothing, the three-byte file `a.jpg` is left empty after the
call, neither newly encoded nor byte-identical to its pre-call contents. -/
theorem C2_counterexample :
    os_read (compress_image oracleEncFail "a.jpg" 45 none false
        ⟨fs1, [], []⟩).1.fs "a.jpg" = some [] ∧
    ¬ (os_read (compress_image oracleEncFail "a.jpg" 45 none false
        ⟨fs1, [], []⟩).1.fs "a.jpg" = os_read fs1 "a.jpg") := by
  decide

/-- Claim C2 (amended): `compress_image` is atomic only up to the save call.
If the path is missing or unreadable, or the image fails to decode, the file
is byte-identical to its pre-call state (second conjunct, and the unchanged
disjunct of the first); once `img.save` runs, the target has been truncated
before encoding, so a successful re-encode leaves the file consisting
entirely of the newly encoded bytes, while an encode failure leaves it
holding exactly the bytes the handler flushed before failing — possibly none,
i.e. truncated empty — rather than its pre-call contents. -/
theorem C2_compress_save_outcomes (o : Oracle) (path : String) (q : Int)
    (r : Option (Nat × Nat)) (pe : Bool) (st : PyState) :
    ((compress_image o path q r pe st).1.fs = st.fs ∨
      ∃ data img, os_read st.fs path = some data ∧ o.decode data = some img ∧
        ((∃ b, o.encode (compress_processed_img o img r) img.format q true
              (exifSel pe img) = Except.ok b ∧
            (compress_image o path q r pe st).1.fs = overwrite st.fs path b ∧
            os_read (compress_image o path q r pe st).1.fs path = some b) ∨
          (∃ e fl, o.encode (compress_processed_img o img r) img.format q true
              (exifSel pe img) = Except.error (e, fl) ∧
            (compress_image o path q r pe st).1.fs
              = overwrite st.fs path fl ∧
            os_read (compress_image o path q r pe st).1.fs path
              = some fl))) ∧
    (∀ data, os_read st.fs path = some data → o.decode data = none →
      (compress_image o path q r pe st).1.fs = st.fs) := by
  constructor
  · have hbody := compress_image_body_fs o path q r pe
      (os_path_getsize st.fs path) st
    unfold compress_image
    split
    · exact Or.inl rfl
    · split
      · rename_i st2 heq
        rw [heq] at hbody
        dsimp only at hbody ⊢
        rcases hbody with h | ⟨data, img, h1, h2, hcase⟩
        · exact Or.inl h
        · refine Or.inr ⟨data, img, h1, h2, ?_⟩
          rcases hcase with ⟨b, hb1, hb2⟩ | ⟨e, fl, he1, he2⟩
          · exact Or.inl ⟨b, hb1, hb2, hb2 ▸ os_read_overwrite b h1⟩
          · exact Or.inr ⟨e, fl, he1, he2, he2 ▸ os_read_overwrite fl h1⟩
      · rename_i st2 e heq
        rw [heq] at hbody
        dsimp only at hbody ⊢
        rcases hbody with h | ⟨data, img, h1, h2, hcase⟩
        · exact Or.inl h
        · refine Or.inr ⟨data, img, h1, h2, ?_⟩
          rcases hcase with ⟨b, hb1, hb2⟩ | ⟨e2, fl, he1, he2⟩
          · exact Or.inl ⟨b, hb1, hb2, hb2 ▸ os_read_overwrite b h1⟩
          · exact Or.inr ⟨e2, fl, he1, he2, he2 ▸ os_read_overwrite fl h1⟩
  · intro data hread hdec
    have hex : ¬(os_path_exists st.fs path = false) := by
      simp [os_path_exists_of_read hread]
    unfold compress_image compress_image_body
    rw [if_neg hex, hread]
    dsimp only
    rw [hdec]


/-- Claim C3, counterexample.  The claim states `convert_to_webp` never
deletes or modifies the source file.  When the source is named `a.webp`,
`os.path.splitext(path)[0] + '.webp'` equals the source path itself, so the
conversion overwrites the source in place with the re-encoded bytes. -/
theorem C3_counterexample :
    ¬ (fs_lookup (convert_to_webp oracleA "a.webp" ⟨fsC3, [], []⟩).1.fs "a.webp"
        = fs_lookup fsC3 "a.webp") := by
  decide

/-- Claim C3 (amended): `convert_to_webp` never modifies the source file
provided the derived `.webp` path differs from the source path (which fails
exactly when the source name already carries the literal `.webp` extension);
on success it writes the encoded image to the sibling path with the same
directory and base name and the `.webp` extension and returns that path; on
failure it logs one error line and returns nothing (the only path the
operation ever writes is the derived path, which a failing save may leave
truncated or partially written). -/
theorem C3_convert_effects (o : Oracle) (path : String) (st : PyState) :
    (webp_path path ≠ path →
      fs_lookup (convert_to_webp o path st).1.fs path = fs_lookup st.fs path) ∧
    (∀ p2, (convert_to_webp o path st).2.2 = some p2 →
      p2 = webp_path path ∧
      ∃ data img b, os_read st.fs path = some data ∧ o.decode data = some img ∧
        o.encodeWebp img = Except.ok b ∧
        (convert_to_webp o path st).1.fs
          = overwrite st.fs (webp_path path) b) ∧
    ((convert_to_webp o path st).2.2 = none →
      ∃ ev, (convert_to_webp o path st).1.log = st.log ++ [ev]) := by
  obtain ⟨h1, h2, h3⟩ := convert_to_webp_run o path st
  refine ⟨?_, ?_, ?_⟩
  · intro hne
    rcases hret : (convert_to_webp o path st).2.2 with _ | p2
    · rcases (h2 hret).1 with hfs | ⟨fl, hfs⟩
      · rw [hfs]
      · rw [hfs]
        exact fs_lookup_overwrite_ne fl (Ne.symm hne)
    · obtain ⟨-, data, img, b, -, -, -, hfs, -⟩ := h3 p2 hret
      rw [hfs]
      exact fs_lookup_overwrite_ne b (Ne.symm hne)
  · intro p2 hret
    obtain ⟨hp2, data, img, b, ha, hb, hc, hfs, -⟩ := h3 p2 hret
    exact ⟨hp2, data, img, b, ha, hb, hc, hfs⟩
  · intro hret
    exact (h2 hret).2

/-- Witness for C3: on `a.jpg` the derived path `a.webp` differs from the
source, and the source entry is untouched by the conversion. -/
theorem C3_convert_effects_witness :
    webp_path "a.jpg" ≠ "a.jpg" ∧
    fs_lookup (convert_to_webp oracleA "a.jpg" ⟨fs1, [], []⟩).1.fs "a.jpg"
      = fs_lookup fs1 "a.jpg" :=
  ⟨by decide,
    (C3_convert_effects oracleA "a.jpg" ⟨fs1, [], []⟩).1 (by decide)⟩

/-- Claim C4, counterexample.  The claim requires selection to happen exactly
iff the entry is a regular file — symbolic links excluded.  A symbolic link
named `link.jpg` resolving to a regular file is selected by the driver filter
(`os.path.isfile` follows symlinks), yet it is not a regular file. -/
theorem C4_counterexample :
    ¬ (driver_selects fsC4 "link.jpg" = true ↔
        ((∃ b, fs_lookup fsC4 "link.jpg" = some (Entry.file b)) ∧
          ∃ ext ∈ valid_extensions,
            List.IsSuffix ext.data (py_lower "link.jpg").data)) := by
  intro h
  obtain ⟨⟨b, hb⟩, -⟩ := h.mp (by decide)
  have hl : fs_lookup fsC4 "link.jpg" = some (Entry.symlinkFile [1, 2, 3]) := by
    decide
  rw [hl] at hb
  simp at hb

/-- Claim C4 (amended): the driver filter selects a directory entry iff
`os.path.isfile` accepts it — it is a regular file or a symbolic link
resolving to a regular file (directories, symlinks to directories and broken
symlinks excluded) — and its name ends, case-insensitively, with one of the
extensions `.jpg`, `.jpeg`, `.png`, `.gif`, `.bmp`, `.webp`. -/
theorem C4_selector_spec (fs : FS) (name : String) :
    driver_selects fs name = true ↔
      ((∃ b, fs_lookup fs name = some (Entry.file b) ∨
          fs_lookup fs name = some (Entry.symlinkFile b)) ∧
        ∃ ext ∈ valid_extensions,
          List.IsSuffix ext.data (py_lower name).data) := by
  unfold driver_selects
  rw [Bool.and_eq_true]
  constructor
  · rintro ⟨hf, he⟩
    constructor
    · unfold os_path_isfile at hf
      rcases hl : fs_lookup fs name with _ | e
      · rw [hl] at hf
        cases hf
      · rw [hl] at hf
        cases e <;> simp_all
    · unfold is_image_file at he
      rw [List.any_eq_true] at he
      obtain ⟨ext, hmem, hsuf⟩ := he
      refine ⟨ext, hmem, ?_⟩
      unfold py_endswith at hsuf
      exact List.isSuffixOf_iff_suffix.mp hsuf
  · rintro ⟨⟨b, hl⟩, ext, hmem, hsuf⟩
    constructor
    · rcases hl with hl | hl <;> simp [os_path_isfile, hl]
    · unfold is_image_file
      rw [List.any_eq_true]
      exact ⟨ext, hmem, by
        unfold py_endswith
        exact List.isSuffixOf_iff_suffix.mpr hsuf⟩

/-- Claim C5, counterexample.  The claim counts invocations by the number `N`
of regular files with a recognized image extension.  On a directory holding
the regular image file `a.jpg`, the regular non-image file `b.txt`, and the
symbolic link `link.jpg` resolving to a regular file, a local-compress batch
pass invokes the per-file operation twice (each call appends exactly one log
line, and the pass starts from an empty log), while `N = 1`. -/
theorem C5_counterexample :
    ¬ ((compress_images_in_directory oracleA 45 none false
          ⟨fsC5, [], []⟩).1.log.length
        = (os_listdir fsC5).countP
            (fun n => spec_regular_file fsC5 n && is_image_file n)) := by
  decide

/-- Claim C5 (amended): a single pass of the local-compress batch driver
invokes the per-file operation exactly once per directory entry accepted by
the driver filter (`os.path.isfile` — which follows symbolic links — together
with the extension allow-list), sequentially and with no exception escaping;
each `compress_image` call appends exactly one log line, so starting from an
empty log the final log length counts the invocations. -/
theorem C5_invocation_count (o : Oracle) (q : Int) (r : Option (Nat × Nat))
    (pe : Bool) (fs : FS) :
    (compress_images_in_directory o q r pe ⟨fs, [], []⟩).1.log.length
      = (os_listdir fs).countP
          (fun n => os_path_isfile fs n && is_image_file n) ∧
    (compress_images_in_directory o q r pe ⟨fs, [], []⟩).2 = none := by
  obtain ⟨h1, h2, h3⟩ := compress_loop_run o q r pe (os_listdir fs)
    ⟨fs, [], []⟩
  exact ⟨by simpa using h3, h1⟩

/-- Claim C6 (confirmed): on a non-existent path, `compress_image` logs a
not-found error, returns normally (no exception), and performs no filesystem
write — the final state changes only by the appended log line. -/
theorem C6_missing_path (o : Oracle) (path : String) (q : Int)
    (r : Option (Nat × Nat)) (pe : Bool) (st : PyState)
    (h : os_path_exists st.fs path = false) :
    compress_image o path q r pe st
      = ({ st with log := st.log ++ [LogEvent.errorNotFound path] }, none) := by
  unfold compress_image
  rw [if_pos h]

/-- Witness for C6: `compress("/no/such/file.png", 45)` on a directory holding
only `a.jpg` logs the not-found error and leaves the filesystem untouched. -/
theorem C6_missing_path_witness :
    os_path_exists fs1 "/no/such/file.png" = false ∧
    compress_image oracleA "/no/such/file.png" 45 none false ⟨fs1, [], []⟩
      = (⟨fs1, [LogEvent.errorNotFound "/no/such/file.png"], []⟩, none) :=
  ⟨by decide, by
    have h := C6_missing_path oracleA "/no/such/file.png" 45 none false
      ⟨fs1, [], []⟩ (by decide)
    simpa using h⟩

/-- Claim C7 (confirmed): when the remote call on an existing readable file
fails with a `tinify.Error`, `compress_image_tinyfy` catches it, logs the
service's error detail, and returns with the filesystem — hence the file's
byte content and size — unchanged. -/
theorem C7_remote_error_contained (o : Oracle) (path : String) (st : PyState)
    (msg : String) (data : Bytes)
    (hread : os_read st.fs path = some data)
    (hfail : o.tinify data = Except.error (PyErr.tinifyError msg)) :
    compress_image_tinyfy o path st
      = ({ st with
            log := st.log ++ [LogEvent.errorTinify (PyErr.tinifyError msg)],
            calls := st.calls ++ [ExtCall.tinifyUpload path] },
          none) := by
  have hex : ¬(os_path_exists st.fs path = false) := by
    simp [os_path_exists_of_read hread]
  unfold compress_image_tinyfy compress_image_tinyfy_body
  rw [if_neg hex, hread]
  dsimp only
  rw [hfail]
  rfl

/-- Witness for C7: a quota failure on `a.jpg` leaves the one-file directory
unchanged and logs the service error. -/
theorem C7_remote_error_contained_witness :
    compress_image_tinyfy oracleTinifyFail "a.jpg" ⟨fs1, [], []⟩
      = (⟨fs1, [LogEvent.errorTinify (PyErr.tinifyError "quota exceeded")],
          [ExtCall.tinifyUpload "a.jpg"]⟩, none) := by
  have h := C7_remote_error_contained oracleTinifyFail "a.jpg" ⟨fs1, [], []⟩
    "quota exceeded" [1, 2, 3] (by decide) (by rfl)
  simpa using h

/-- Claim C8 (confirmed): a successful `compress_image` run with positive
original size logs exactly the reduction percentage
`(1 - size_after/size_before) * 100` (over exact rationals), where
`size_after` is the length of the encoder output that replaced the file; the
formula is also what is logged when the value is negative (see the witness,
where the file grows from three to five bytes). -/
theorem C8_reduction_exact (o : Oracle) (path : String) (q : Int)
    (r : Option (Nat × Nat)) (pe : Bool) (st : PyState)
    (data : Bytes) (img : Img) (b : Bytes)
    (hread : os_read st.fs path = some data)
    (hdec : o.decode data = some img)
    (henc : o.encode (compress_processed_img o img r) img.format q true
        (exifSel pe img) = Except.ok b)
    (hsz : os_path_getsize st.fs path ≠ 0) :
    (compress_image o path q r pe st).1.log
      = st.log ++ [LogEvent.infoCompressed path
          (specReduction (os_path_getsize st.fs path) b.length)] := by
  have hex : ¬(os_path_exists st.fs path = false) := by
    simp [os_path_exists_of_read hread]
  unfold compress_image compress_image_body
  rw [if_neg hex, hread]
  dsimp only
  rw [hdec]
  dsimp only
  rw [henc, pil_save_ok_of_read b hread]
  dsimp only
  rw [if_neg hsz]
  dsimp only
  rw [os_path_getsize_overwrite b hread]
  rfl

/-- Witness for C8: with an encoder growing `a.jpg` from three to five bytes,
the logged reduction is `specReduction 3 5 = (1 - 5/3) * 100`, a negative
value, reported rather than treated as an error. -/
theorem C8_reduction_exact_witness :
    (compress_image oracleGrow "a.jpg" 45 none false ⟨fs1, [], []⟩).1.log
      = [LogEvent.infoCompressed "a.jpg" (specReduction 3 5)] ∧
    specReduction 3 5 < 0 := by
  constructor
  · have h := C8_reduction_exact oracleGrow "a.jpg" 45 none false ⟨fs1, [], []⟩
      [1, 2, 3] imgA [1, 2, 3, 4, 5] (by decide) (by decide) (by rfl)
      (by decide)
    have h3 : os_path_getsize fs1 "a.jpg" = 3 := by decide
    rw [h3] at h
    simpa using h
  · norm_num [specReduction]

/-- Claim C9 (confirmed): with a resize target `(w, h)`, the image handed to
the encoder has exactly width `w` and height `h` (no aspect-ratio
preservation — the target is used verbatim), resampled with the antialiasing
filter (`Image.ANTIALIAS`); with no resize target the decoded image is handed
to the encoder unchanged, so its dimensions are not altered. -/
theorem C9_resize_exact (o : Oracle) (path : String) (q : Int) (pe : Bool)
    (st : PyState) (data : Bytes) (img : Img)
    (hread : os_read st.fs path = some data)
    (hdec : o.decode data = some img) :
    (∀ w h : Nat,
      (compress_image o path q (some (w, h)) pe st).1.calls
        = st.calls ++ [ExtCall.resizeCall w h PILFilter.antialias,
            ExtCall.saveCall (pil_resize o img w h) img.format q true
              (exifSel pe img)]
      ∧ (pil_resize o img w h).width = w ∧ (pil_resize o img w h).height = h)
    ∧ (compress_image o path q none pe st).1.calls
        = st.calls ++ [ExtCall.saveCall img img.format q true
            (exifSel pe img)] := by
  constructor
  · intro w h
    refine ⟨?_, rfl, rfl⟩
    rw [compress_image_calls o path q (some (w, h)) pe st hread hdec]
    simp [resizeEvents, compress_processed_img]
  · rw [compress_image_calls o path q none pe st hread hdec]
    simp [resizeEvents, compress_processed_img]

/-- Witness for C9: compressing `a.jpg` with target `(800, 600)` records the
antialias resize call and a save call on an image of exactly 800×600. -/
theorem C9_resize_exact_witness :
    (compress_image oracleA "a.jpg" 85 (some (800, 600)) true
        ⟨fs1, [], []⟩).1.calls
      = [ExtCall.resizeCall 800 600 PILFilter.antialias,
          ExtCall.saveCall (pil_resize oracleA imgA 800 600) imgA.format 85
            true (exifSel true imgA)]
    ∧ (pil_resize oracleA imgA 800 600).width = 800
    ∧ (pil_resize oracleA imgA 800 600).height = 600 := by
  have h := (C9_resize_exact oracleA "a.jpg" 85 true ⟨fs1, [], []⟩ [1, 2, 3]
    imgA (by decide) (by decide)).1 800 600
  exact ⟨by simpa using h.1, h.2.1, h.2.2⟩

/-- Claim C10 (confirmed): `compress_image` performs no validation of the
quality parameter — for every integer quality, including `0`, negative
values, and values above `100`, once the image decodes the save call is made
with exactly the given quality, never rejected or clamped. -/
theorem C10_quality_forwarded (o : Oracle) (path : String) (q : Int)
    (r : Option (Nat × Nat)) (pe : Bool) (st : PyState) (data : Bytes)
    (img : Img) (hread : os_read st.fs path = some data)
    (hdec : o.decode data = some img) :
    ExtCall.saveCall (compress_processed_img o img r) img.format q true
        (exifSel pe img)
      ∈ (compress_image o path q r pe st).1.calls := by
  rw [compress_image_calls o path q r pe st hread hdec]
  simp

/-- Witness for C10: the out-of-range quality `-5` reaches the save call
unchanged. -/
theorem C10_quality_forwarded_witness :
    ExtCall.saveCall imgA imgA.format (-5) true (exifSel false imgA)
      ∈ (compress_image oracleA "a.jpg" (-5) none false
          ⟨fs1, [], []⟩).1.calls :=
  C10_quality_forwarded oracleA "a.jpg" (-5) none false ⟨fs1, [], []⟩
    [1, 2, 3] imgA (by decide) (by decide)

end ImageOptimus
